import Mathlib

/-!
Verification development for the ffmpeg-editor backend (Tauri/Rust).

The source files embedded here:
  * `src-tauri/src/utils.rs`    — `parse_duration`, `parse_progress`
  * `src-tauri/src/ffmpeg.rs`   — `build_filter_chain`
  * `src-tauri/src/commands.rs` — `convert_media` loop, `merge_media`
  * `src-tauri/src/models.rs`   — the settings data model

Modelling conventions: Rust `f32`/`f64` values are modelled as exact
rationals (`Rat`); `f32::EPSILON` is the exact rational 2^-23; the
`Display` rendering of a float is modelled as the exact decimal
expansion of the rational (for values whose reduced denominator divides
a power of ten, which covers every value exercised in the theorems).
Rust `String`s are modelled as `List Char`, written `Str`.  The regex
searches in `utils.rs` are embedded as leftmost-match scanners whose
per-position semantics coincide with the (backtracking-free) patterns
used by the source.
-/

set_option maxRecDepth 4000

namespace FFE

/-- Rust strings are modelled as lists of characters. -/
abbrev Str := List Char

/-- The single-quote character, written via its code point. -/
def qc : Char := Char.ofNat 39

/-- `f32::EPSILON` = 2^-23, as an exact rational. -/
def EPS : Rat := 1 / 8388608

/-- `f32::abs` / `f64::abs`, computably. -/
def ratAbs (q : Rat) : Rat := if q < 0 then -q else q

/-- `f64::max` / `f32::max`, computably. -/
def ratMax (a b : Rat) : Rat := if a < b then b else a

/-- `f64::min`, computably. -/
def ratMin (a b : Rat) : Rat := if a < b then a else b

theorem ratAbs_eq_abs (q : Rat) : ratAbs q = |q| := by
  unfold ratAbs
  split
  · exact (abs_of_neg (by assumption)).symm
  · exact (abs_of_nonneg (le_of_not_lt (by assumption))).symm

theorem ratMax_eq_max (a b : Rat) : ratMax a b = max a b := by
  unfold ratMax
  split
  · exact (max_eq_right (le_of_lt (by assumption))).symm
  · exact (max_eq_left (le_of_not_lt (by assumption))).symm

theorem ratMin_eq_min (a b : Rat) : ratMin a b = min a b := by
  unfold ratMin
  split
  · exact (min_eq_left (le_of_lt (by assumption))).symm
  · exact (min_eq_right (le_of_not_lt (by assumption))).symm

/-- Decimal digits of a natural number. -/
def natToStr (n : Nat) : Str := Nat.toDigits 10 n

/-- Left-pad with zeros to width `k`. -/
def padZeros (s : Str) (k : Nat) : Str := List.replicate (k - s.length) '0' ++ s

/-- Render a non-negative rational `num/den` the way Rust `Display`
prints the corresponding float value: the exact (shortest) decimal
expansion when the denominator divides a power of ten. -/
def renderPos (num den : Nat) : Str :=
  match (List.range 65).find? (fun k => 10 ^ k % den == 0) with
  | some k =>
    if k = 0 then natToStr num
    else
      let scaled := num * 10 ^ k / den
      natToStr (scaled / 10 ^ k) ++ '.' :: padZeros (natToStr (scaled % 10 ^ k)) k
  | none => natToStr num ++ '/' :: natToStr den

/-- Model of Rust `format!("{}", x)` for a float, on the rational model. -/
def renderAux (num : Int) (den : Nat) : Str :=
  if num < 0 then '-' :: renderPos num.natAbs den else renderPos num.toNat den

/-- Model of Rust `format!("{}", q)` for a float value `q`. -/
def renderF (q : Rat) : Str := renderAux q.num q.den

/-- Model of Rust `format!("{:.2}", q)` for a non-negative float value. -/
def renderF2pos (q : Rat) : Str :=
  let n := (q * 100 + 1 / 2).floor.toNat
  natToStr (n / 100) ++ '.' :: padZeros (natToStr (n % 100)) 2

/-- Model of Rust `format!("{:.2}", q)`. -/
def renderF2 (q : Rat) : Str :=
  if q < 0 then '-' :: renderF2pos (-q) else renderF2pos q

/-- Rust `Vec::join(",")` on the character-list model. -/
def joinComma : List Str → Str
  | [] => []
  | [s] => s
  | s :: t :: rest => s ++ ',' :: joinComma (t :: rest)

/- ----------------------------------------------------------------
   utils.rs — the regex-based parsers.
   ---------------------------------------------------------------- -/

/-- Consume the literal `lit` from the front of `l` (part of matching a
regex at a fixed start position). -/
def dropLit : Str → Str → Option Str
  | [], l => some l
  | _ :: _, [] => none
  | c :: cs, x :: xs => if c = x then dropLit cs xs else none

/-- Match `(\d+):(\d+):(\d+\.?\d*)` at the start of `l`, returning the
three capture groups.  Greedy matching is exact here because no
backtracking can succeed for this pattern. -/
def matchHMS (l : Str) : Option (Str × Str × Str) :=
  let d1 := l.takeWhile Char.isDigit
  if d1.isEmpty then none else
  match l.dropWhile Char.isDigit with
  | ':' :: r2 =>
    let d2 := r2.takeWhile Char.isDigit
    if d2.isEmpty then none else
    match r2.dropWhile Char.isDigit with
    | ':' :: r4 =>
      let d3 := r4.takeWhile Char.isDigit
      if d3.isEmpty then none else
      match r4.dropWhile Char.isDigit with
      | '.' :: r6 => some (d1, d2, d3 ++ '.' :: r6.takeWhile Char.isDigit)
      | _ => some (d1, d2, d3)
    | _ => none
  | _ => none

/-- Leftmost search: try `lit` followed by `m` at every position, left
to right (the search semantics of `Regex::captures`). -/
def searchLit {α : Type} (lit : Str) (m : Str → Option α) : Str → Option α
  | [] => none
  | c :: t =>
    match dropLit lit (c :: t) with
    | some r =>
      match m r with
      | some v => some v
      | none => searchLit lit m t
    | none => searchLit lit m t

/-- Match `\s*([\d.]+x)` (the tail of the `speed=` pattern), returning
the capture (which includes the trailing `x`). -/
def matchSpeedTail (l : Str) : Option Str :=
  let r := l.dropWhile Char.isWhitespace
  let run := r.takeWhile (fun c => c.isDigit || c == '.')
  if run.isEmpty then none else
  match r.dropWhile (fun c => c.isDigit || c == '.') with
  | 'x' :: _ => some (run ++ ['x'])
  | _ => none

/-- Match `\s*(\S+)` (the tail of the `size=` pattern). -/
def matchSizeTail (l : Str) : Option Str :=
  let r := l.dropWhile Char.isWhitespace
  let run := r.takeWhile (fun c => !c.isWhitespace)
  if run.isEmpty then none else some run

/-- Decimal digits of a digit string. -/
def digitsToNat (l : Str) : Nat := l.foldl (fun n c => 10 * n + (c.toNat - 48)) 0

/-- Model of Rust `str::parse::<f64>()` restricted to the shapes the
captures can take: `digits` or `digits.digits*`. -/
def parseDecimal (l : Str) : Option Rat :=
  let d := l.takeWhile Char.isDigit
  if d.isEmpty then none else
  match l.dropWhile Char.isDigit with
  | [] => some (digitsToNat d : Rat)
  | '.' :: fr =>
    if fr.all Char.isDigit then
      some ((digitsToNat d : Rat) + (digitsToNat fr : Rat) / 10 ^ fr.length)
    else none
  | _ => none

/-- `caps.get(i).unwrap().as_str().parse().unwrap_or(0.0)`. -/
def capVal (g : Str) : Rat := (parseDecimal g).getD 0

/-- `hours * 3600.0 + mins * 60.0 + secs` for the three captures. -/
def hmsVal (caps : Str × Str × Str) : Rat :=
  capVal caps.1 * 3600 + capVal caps.2.1 * 60 + capVal caps.2.2

/-- The literal before the duration pattern: `Duration: `. -/
def durLit : Str := "Duration: ".data

/-- The literal before the progress-time pattern: `time=`. -/
def timeLit : Str := "time=".data

/-- `parse_duration` from `utils.rs`. -/
def parse_duration (s : Str) : Rat :=
  match searchLit durLit matchHMS s with
  | some caps => hmsVal caps
  | none => 0

/-- The Progress record from `models.rs`. -/
structure Progress where
  percent : Rat
  time : Rat
  speed : Str
  size : Str
deriving DecidableEq

/-- `parse_progress` from `utils.rs`. -/
def parse_progress (line : Str) (duration : Rat) : Option Progress :=
  match searchLit timeLit matchHMS line with
  | some caps =>
    let current_time := hmsVal caps
    let percent := if duration > 0 then ratMin (current_time / duration * 100) 100 else 0
    let speed := (searchLit "speed=".data matchSpeedTail line).getD "N/A".data
    let size := (searchLit "size=".data matchSizeTail line).getD "0kB".data
    some ⟨percent, current_time, speed, size⟩
  | none => none

/-- The `Captures` object of the HMS regexes viewed the way the Rust
code accesses it: a list of optional groups indexed from group 1. -/
def capsList (caps : Str × Str × Str) : List (Option Str) :=
  [some caps.1, some caps.2.1, some caps.2.2]

/-- `parse_duration` with every `unwrap` modelled as a fallible step:
an outer `none` would be a panic. -/
def parse_durationChecked (s : Str) : Option Rat :=
  match searchLit durLit matchHMS s with
  | some caps => do
    let g1 ← ((capsList caps).get? 0).join
    let g2 ← ((capsList caps).get? 1).join
    let g3 ← ((capsList caps).get? 2).join
    pure ((parseDecimal g1).getD 0 * 3600 + (parseDecimal g2).getD 0 * 60
        + (parseDecimal g3).getD 0)
  | none => some 0

/-- `parse_progress` with every `unwrap` modelled as a fallible step:
an outer `none` would be a panic. -/
def parse_progressChecked (line : Str) (duration : Rat) : Option (Option Progress) :=
  match searchLit timeLit matchHMS line with
  | some caps => do
    let g1 ← ((capsList caps).get? 0).join
    let g2 ← ((capsList caps).get? 1).join
    let g3 ← ((capsList caps).get? 2).join
    let current_time := (parseDecimal g1).getD 0 * 3600 + (parseDecimal g2).getD 0 * 60
        + (parseDecimal g3).getD 0
    let percent := if duration > 0 then ratMin (current_time / duration * 100) 100 else 0
    let speed ← match searchLit "speed=".data (fun l => (matchSpeedTail l).map (fun v => [some v])) line with
      | some cs => (cs.get? 0).join
      | none => some "N/A".data
    let size ← match searchLit "size=".data (fun l => (matchSizeTail l).map (fun v => [some v])) line with
      | some cs => (cs.get? 0).join
      | none => some "0kB".data
    pure (some ⟨percent, current_time, speed, size⟩)
  | none => pure none

/-- The declarative statement "`s` contains a token `lit` followed by
`digits:digits:digits`" (the optional fractional part of the grammar is
immaterial for containment). -/
def ContainsLitHMS (lit : Str) (s : Str) : Prop :=
  ∃ p d1 d2 d3 r, d1 ≠ [] ∧ (∀ c ∈ d1, c.isDigit = true) ∧
    d2 ≠ [] ∧ (∀ c ∈ d2, c.isDigit = true) ∧
    d3 ≠ [] ∧ (∀ c ∈ d3, c.isDigit = true) ∧
    s = p ++ (lit ++ (d1 ++ ':' :: (d2 ++ ':' :: (d3 ++ r))))

/- ----------------------------------------------------------------
   models.rs — the settings data model.
   ---------------------------------------------------------------- -/

/-- `FilterSettings` from `models.rs`. -/
structure FilterSettings where
  brightness : Rat
  contrast : Rat
  saturation : Rat
  blur : Rat
  sharpen : Rat
  gamma : Rat
  hue : Rat
  vignette : Bool
  vignette_strength : Rat
deriving DecidableEq

/-- `AudioFilterSettings` from `models.rs`. -/
structure AudioFilterSettings where
  normalize : Bool
  target_lufs : Rat
  eq_enabled : Bool
  bass_gain : Rat
  mid_gain : Rat
  treble_gain : Rat
  noise_reduction : Bool
  noise_reduction_strength : Rat
  compressor_enabled : Bool
  compressor_threshold : Rat
  compressor_ratio : Rat
  fade_in_duration : Rat
  fade_out_duration : Rat
deriving DecidableEq

/-- `VideoTransformSettings` from `models.rs`. -/
structure VideoTransformSettings where
  rotation : Nat
  crop_enabled : Bool
  crop_top : Nat
  crop_bottom : Nat
  crop_left : Nat
  crop_right : Nat
  flip_horizontal : Bool
  flip_vertical : Bool
  deinterlace : Bool
  denoise : Bool
  denoise_strength : Nat
  fade_in_duration : Rat
  fade_out_duration : Rat
deriving DecidableEq

/-- `TextOverlay` from `models.rs`. -/
structure TextOverlay where
  content : Str
  font_size : Nat
  color : Str
  x : Str
  y : Str
deriving DecidableEq

/-- `ImageOverlay` from `models.rs`. -/
structure ImageOverlay where
  path : Str
  x : Str
  y : Str
  opacity : Rat
deriving DecidableEq

/-- `OverlaySettings` from `models.rs`. -/
structure OverlaySettings where
  text : Option TextOverlay
  image : Option ImageOverlay
deriving DecidableEq

/-- `ConvertOptions` from `models.rs`. -/
structure ConvertOptions where
  input : Str
  output : Str
  video_codec : Option Str
  audio_codec : Option Str
  crf : Option Nat
  preset : Option Str
  start_time : Option Rat
  end_time : Option Rat
  width : Option Nat
  height : Option Nat
  audio_only : Bool
  subtitle_path : Option Str
  merge_files : Option (List Str)
  filters : Option FilterSettings
  overlays : Option OverlaySettings
  audio_volume : Option Rat
  playback_speed : Option Rat
  export_gif : Option Bool
  extract_thumbnail : Option Bool
  hw_accel : Option Bool
  audio_filters : Option AudioFilterSettings
  video_transform : Option VideoTransformSettings
deriving DecidableEq

/- ----------------------------------------------------------------
   ffmpeg.rs — build_filter_chain, split into its sequential pieces
   exactly in push order.
   ---------------------------------------------------------------- -/

/-- `std::f32::consts::PI / 2.0` as an exact rational (`PI` as `f32` is
13176795 * 2^-22). -/
def f32PiHalf : Rat := 13176795 / 8388608

/-- Step 1: pre-scale transforms (deinterlace, denoise). -/
def vfPre (o : ConvertOptions) : List Str :=
  match o.video_transform with
  | some t =>
    (if t.deinterlace then ["yadif".data] else []) ++
    (if t.denoise then ["hqdn3d=luma_tmp=".data ++ renderF ((t.denoise_strength : Rat) / 2)] else [])
  | none => []

/-- Step 2: playback speed (video PTS). -/
def vfSpeed (o : ConvertOptions) : List Str :=
  match o.playback_speed with
  | some speed =>
    if ratAbs (speed - 1) > EPS then ["setpts=".data ++ renderF (1 / speed) ++ "*PTS".data] else []
  | none => []

/-- Step 3: rotation (transpose). -/
def vfRot (o : ConvertOptions) : List Str :=
  match o.video_transform with
  | some t =>
    match t.rotation with
    | 90 => ["transpose=1".data]
    | 180 => ["transpose=2,transpose=2".data]
    | 270 => ["transpose=2".data]
    | _ => []
  | none => []

/-- Step 4: crop. -/
def vfCrop (o : ConvertOptions) : List Str :=
  match o.video_transform with
  | some t =>
    if t.crop_enabled then
      ["crop=in_w-".data ++ natToStr t.crop_left ++ '-' :: natToStr t.crop_right ++
       ":in_h-".data ++ natToStr t.crop_top ++ '-' :: natToStr t.crop_bottom ++
       ':' :: natToStr t.crop_left ++ ':' :: natToStr t.crop_top]
    else []
  | none => []

/-- Step 5: scale. -/
def vfScale (o : ConvertOptions) : List Str :=
  if o.width.isSome || o.height.isSome then
    ["scale=".data ++ (match o.width with | some v => natToStr v | none => "-1".data) ++
     ':' :: (match o.height with | some v => natToStr v | none => "-1".data)]
  else []

/-- Step 6: post-scale flips. -/
def vfFlip (o : ConvertOptions) : List Str :=
  match o.video_transform with
  | some t =>
    (if t.flip_horizontal then ["hflip".data] else []) ++
    (if t.flip_vertical then ["vflip".data] else [])
  | none => []

/-- Step 7: color adjustment, hue, blur, sharpen, vignette. -/
def vfColor (o : ConvertOptions) : List Str :=
  match o.filters with
  | some f =>
    ["eq=brightness=".data ++ renderF f.brightness ++ ":contrast=".data ++ renderF f.contrast ++
     ":saturation=".data ++ renderF f.saturation ++ ":gamma=".data ++ renderF f.gamma] ++
    (if f.hue ≠ 0 then ["hue=h=".data ++ renderF f.hue] else []) ++
    (if f.blur > 0 then ["boxblur=".data ++ renderF f.blur] else []) ++
    (if f.sharpen > 0 then ["unsharp=5:5:".data ++ renderF f.sharpen] else []) ++
    (if f.vignette then ["vignette=a=".data ++ renderF (f32PiHalf * f.vignette_strength)] else [])
  | none => []

/-- The fade-out start time: `(output_duration - fade_duration).max(0.0)`
with `end = end_time.unwrap_or(total_duration)` and
`start = start_time.unwrap_or(0.0)`. -/
def fadeOutStart (o : ConvertOptions) (total_duration fadeDur : Rat) : Rat :=
  ratMax ((o.end_time.getD total_duration - o.start_time.getD 0) - fadeDur) 0

/-- Step 8: video fade in/out. -/
def vfFade (o : ConvertOptions) (total_duration : Rat) : List Str :=
  match o.video_transform with
  | some t =>
    (if t.fade_in_duration > 0 then
      ["fade=t=in:st=".data ++ renderF (o.start_time.getD 0) ++ ":d=".data ++ renderF t.fade_in_duration]
     else []) ++
    (if t.fade_out_duration > 0 then
      ["fade=t=out:st=".data ++ renderF (fadeOutStart o total_duration t.fade_out_duration) ++
       ":d=".data ++ renderF t.fade_out_duration]
     else [])
  | none => []

/-- `replace(":", "\\:")` for single-character patterns. -/
def escColon (l : Str) : Str := (l.map (fun c => if c = ':' then ['\\', ':'] else [c])).flatten

/-- `replace("'", "'\\''")`. -/
def escQuote (l : Str) : Str := (l.map (fun c => if c = qc then [qc, '\\', qc, qc] else [c])).flatten

/-- Step 9a: subtitle burn-in; path has backslashes replaced by forward
slashes, then colons escaped. -/
def vfSub (o : ConvertOptions) : List Str :=
  match o.subtitle_path with
  | some p =>
    ["subtitles=".data ++ qc :: (escColon (p.map (fun c => if c = '\\' then '/' else c)) ++ [qc])]
  | none => []

/-- Step 9b: text overlay (drawtext). -/
def vfText (o : ConvertOptions) : List Str :=
  match o.overlays with
  | some ov =>
    match ov.text with
    | some t =>
      ["drawtext=text=".data ++ qc :: (escQuote (escColon t.content) ++
       (qc :: ":fontsize=".data) ++ natToStr t.font_size ++ ":fontcolor=".data ++ t.color ++
       ":x=".data ++ (if t.x = [] then "10".data else t.x) ++
       ":y=".data ++ (if t.y = [] then "10".data else t.y))]
    | none => []
  | none => []

/-- Step 10: the GIF palette pipeline. -/
def vfGif (o : ConvertOptions) : List Str :=
  if o.export_gif.getD false then
    ["fps=15,scale=480:-1:flags=lanczos,split[s0][s1];[s0]palettegen[p];[s1][p]paletteuse".data]
  else []

/-- The full simple video-filter chain, in source push order. -/
def vfFilters (o : ConvertOptions) (total_duration : Rat) : List Str :=
  vfPre o ++ vfSpeed o ++ vfRot o ++ vfCrop o ++ vfScale o ++ vfFlip o ++
  vfColor o ++ vfFade o total_duration ++ vfSub o ++ vfText o ++ vfGif o

/-- Audio step 1: noise reduction. -/
def afNoise (o : ConvertOptions) : List Str :=
  match o.audio_filters with
  | some af =>
    if af.noise_reduction then
      ["afftdn=nr=".data ++ renderF2 (ratMax (af.noise_reduction_strength / 100 * 30) (1 / 10))]
    else []
  | none => []

/-- Audio step 2: playback speed (atempo). -/
def afSpeed (o : ConvertOptions) : List Str :=
  match o.playback_speed with
  | some speed =>
    if ratAbs (speed - 1) > EPS then ["atempo=".data ++ renderF speed] else []
  | none => []

/-- Audio step 3: simple volume. -/
def afVolume (o : ConvertOptions) : List Str :=
  match o.audio_volume with
  | some vol =>
    if ratAbs (vol - 1) > EPS then ["volume=".data ++ renderF vol] else []
  | none => []

/-- Audio step 4: three-band equalizer. -/
def afEq (o : ConvertOptions) : List Str :=
  match o.audio_filters with
  | some af =>
    if af.eq_enabled then
      ["equalizer=f=100:t=h:w=200:g=".data ++ renderF af.bass_gain,
       "equalizer=f=1000:t=h:w=500:g=".data ++ renderF af.mid_gain,
       "equalizer=f=10000:t=h:w=2000:g=".data ++ renderF af.treble_gain]
    else []
  | none => []

/-- Audio step 5: compressor. -/
def afComp (o : ConvertOptions) : List Str :=
  match o.audio_filters with
  | some af =>
    if af.compressor_enabled then
      ["acompressor=threshold=".data ++ renderF af.compressor_threshold ++
       "dB:ratio=".data ++ renderF af.compressor_ratio ++ ":attack=5:release=50".data]
    else []
  | none => []

/-- Audio step 6: loudness normalization. -/
def afNorm (o : ConvertOptions) : List Str :=
  match o.audio_filters with
  | some af =>
    if af.normalize then ["loudnorm=I=".data ++ renderF af.target_lufs ++ ":TP=-1.5:LRA=11".data]
    else []
  | none => []

/-- Audio step 7: audio fade in/out, same arithmetic as the video fades. -/
def afFade (o : ConvertOptions) (total_duration : Rat) : List Str :=
  match o.audio_filters with
  | some af =>
    (if af.fade_in_duration > 0 then
      ["afade=t=in:st=".data ++ renderF (o.start_time.getD 0) ++ ":d=".data ++ renderF af.fade_in_duration]
     else []) ++
    (if af.fade_out_duration > 0 then
      ["afade=t=out:st=".data ++ renderF (fadeOutStart o total_duration af.fade_out_duration) ++
       ":d=".data ++ renderF af.fade_out_duration]
     else [])
  | none => []

/-- The full audio-filter chain, in source push order. -/
def afFilters (o : ConvertOptions) (total_duration : Rat) : List Str :=
  afNoise o ++ afSpeed o ++ afVolume o ++ afEq o ++ afComp o ++ afNorm o ++
  afFade o total_duration

/-- The `-af` argument pair, emitted only when the chain is non-empty. -/
def afArgs (o : ConvertOptions) (total_duration : Rat) : List Str :=
  if afFilters o total_duration = [] then []
  else ["-af".data, joinComma (afFilters o total_duration)]

/-- The `-vframes 1` pair for thumbnail extraction. -/
def thumbArgs (o : ConvertOptions) : List Str :=
  if o.extract_thumbnail.getD false then ["-vframes".data, "1".data] else []

/-- The `-filter_complex` expression built when an image overlay is
present. -/
def filterComplexStr (o : ConvertOptions) (total_duration : Rat) (img : ImageOverlay) : Str :=
  let vf := vfFilters o total_duration
  let vfStr := if vf = [] then "null".data else joinComma vf
  let xPos := if img.x = [] then "0".data else img.x
  let yPos := if img.y = [] then "0".data else img.y
  let overlayChain :=
    if ratAbs (img.opacity - 1) > EPS then
      "[1:v]format=rgba,colorchannelmixer=aa=".data ++ renderF2 img.opacity ++
      "[ovr];[v1][ovr]overlay=x=".data ++ xPos ++ ":y=".data ++ yPos ++ "[outv]".data
    else
      "[v1][1:v]overlay=x=".data ++ xPos ++ ":y=".data ++ yPos ++ "[outv]".data
  "[0:v]".data ++ vfStr ++ "[v1];".data ++ overlayChain

/-- `build_filter_chain` from `ffmpeg.rs`: the argument list plus the
`uses_complex` flag. -/
def build_filter_chain (o : ConvertOptions) (total_duration : Rat) : List Str × Bool :=
  match o.overlays.bind OverlaySettings.image with
  | some img =>
    (["-filter_complex".data, filterComplexStr o total_duration img,
      "-map".data, "[outv]".data] ++
     afArgs o total_duration ++
     (if !o.audio_only then ["-map".data, "0:a".data] else []) ++
     thumbArgs o, true)
  | none =>
    ((if vfFilters o total_duration = [] then []
      else ["-vf".data, joinComma (vfFilters o total_duration)]) ++
     afArgs o total_duration ++ thumbArgs o, false)

/- ----------------------------------------------------------------
   commands.rs — the convert_media streaming loop and merge_media,
   modelled over explicit inputs: the list of diagnostic lines, the
   cancellation flag as observed at each loop iteration, and the exit
   status of the child process.
   ---------------------------------------------------------------- -/

/-- Outcomes of `convert_media` after the spawn succeeded. -/
inductive ConvOutcome where
  | success
  | cancelled
  | toolFailure
deriving DecidableEq

/-- The final synthetic 100% progress event. -/
def finalProg (total_duration : Rat) : Progress :=
  ⟨100, total_duration, "Done".data, "Complete".data⟩

/-- The `while let Ok(Some(line))` loop of `convert_media`: before each
line is processed the cancellation flag is loaded; if set, the child is
killed and the function returns the cancellation error.  At stream end
the exit status decides between success (with the final synthetic
event) and the generic tool failure. -/
def convertLoopAux (flag : Nat → Bool) (exitOk : Bool) (total_duration : Rat) :
    List Str → Nat → ConvOutcome × List Progress
  | [], _ => if exitOk then (.success, [finalProg total_duration]) else (.toolFailure, [])
  | l :: rest, i =>
    if flag i then (.cancelled, [])
    else
      let x := convertLoopAux flag exitOk total_duration rest (i + 1)
      (x.1, (match parse_progress l total_duration with | some p => [p] | none => []) ++ x.2)

/-- One `convert_media` run after a successful spawn. -/
def convertRun (lines : List Str) (flag : Nat → Bool) (exitOk : Bool)
    (total_duration : Rat) : ConvOutcome × List Progress :=
  convertLoopAux flag exitOk total_duration lines 0

/-- How the external invocation can go inside `merge_media`. -/
inductive MergeSpawn where
  | launchFail
  | waitFail
  | exited (ok : Bool)
deriving DecidableEq

/-- Outcomes of `merge_media`. -/
inductive MergeOutcome where
  | success
  | writeError
  | launchError
  | processError
  | mergeFailed
deriving DecidableEq

/-- The concat list file contents written by `merge_media`. -/
def concatContent (files : List Str) : Str :=
  (files.map (fun f => "file ".data ++ qc :: (escQuote f ++ qc :: ['\n']))).flatten

/-- `merge_media` control flow: write the list file, spawn, wait,
remove the list file, then check the exit status.  The second component
records whether the temporary list file was removed. -/
def merge_media_model (writeOk : Bool) (sp : MergeSpawn) : MergeOutcome × Bool :=
  if !writeOk then (.writeError, false)
  else
    match sp with
    | .launchFail => (.launchError, false)
    | .waitFail => (.processError, false)
    | .exited ok => if ok then (.success, true) else (.mergeFailed, true)

/- ----------------------------------------------------------------
   Lemmas: spans, literal stripping, and the HMS matcher.
   ---------------------------------------------------------------- -/

theorem span_all {p : Char → Bool} {d : Str} (hd : ∀ c ∈ d, p c = true) :
    d.takeWhile p = d ∧ d.dropWhile p = [] := by
  induction d with
  | nil => exact ⟨rfl, rfl⟩
  | cons a t ih =>
    have ha : p a = true := hd a (List.mem_cons_self a t)
    have iht := ih (fun c hc => hd c (List.mem_cons_of_mem a hc))
    simp [List.takeWhile_cons, List.dropWhile_cons, ha, iht.1, iht.2]

theorem span_append {p : Char → Bool} {d : Str} (hd : ∀ c ∈ d, p c = true) {c : Char}
    (hc : p c = false) (t : Str) :
    (d ++ c :: t).takeWhile p = d ∧ (d ++ c :: t).dropWhile p = c :: t := by
  induction d with
  | nil => simp [List.takeWhile_cons, List.dropWhile_cons, hc]
  | cons a d' ih =>
    have ha : p a = true := hd a (List.mem_cons_self a d')
    have iht := ih (fun x hx => hd x (List.mem_cons_of_mem a hx))
    simp [List.takeWhile_cons, List.dropWhile_cons, ha, iht.1, iht.2]

theorem dropLit_eq_some {lit : Str} : ∀ {l r : Str}, dropLit lit l = some r ↔ l = lit ++ r := by
  induction lit with
  | nil =>
    intro l r
    simp [dropLit]
  | cons c cs ih =>
    intro l r
    cases l with
    | nil => simp [dropLit]
    | cons x xs =>
      by_cases hcx : c = x
      · subst hcx
        simp [dropLit, ih]
      · constructor
        · intro h
          simp [dropLit, hcx] at h
        · intro h
          injection h with h1 _
          exact absurd h1.symm hcx

theorem matchHMS_isSome_of {d1 d2 d3 : Str} (r : Str)
    (h1 : d1 ≠ []) (hd1 : ∀ c ∈ d1, c.isDigit = true)
    (h2 : d2 ≠ []) (hd2 : ∀ c ∈ d2, c.isDigit = true)
    (h3 : d3 ≠ []) (hd3 : ∀ c ∈ d3, c.isDigit = true) :
    (matchHMS (d1 ++ ':' :: (d2 ++ ':' :: (d3 ++ r)))).isSome = true := by
  have hcolon : Char.isDigit ':' = false := by decide
  have s1 := span_append hd1 hcolon (d2 ++ ':' :: (d3 ++ r))
  have s2 := span_append hd2 hcolon (d3 ++ r)
  have hne1 : d1.isEmpty = false := by
    cases d1 with
    | nil => exact absurd rfl h1
    | cons _ _ => rfl
  have hne2 : d2.isEmpty = false := by
    cases d2 with
    | nil => exact absurd rfl h2
    | cons _ _ => rfl
  have hE3 : ((d3 ++ r).takeWhile Char.isDigit).isEmpty = false := by
    obtain ⟨c0, d3t, rfl⟩ : ∃ c0 d3t, d3 = c0 :: d3t := by
      cases d3 with
      | nil => exact absurd rfl h3
      | cons c0 d3t => exact ⟨c0, d3t, rfl⟩
    have hc0 : c0.isDigit = true := hd3 c0 (List.mem_cons_self c0 d3t)
    simp [List.takeWhile_cons, hc0]
  simp only [matchHMS, s1.1, s1.2, s2.1, s2.2, hne1, hne2, hE3, Bool.false_eq_true, if_false]
  split <;> simp

theorem matchHMS_eq_some {l a b c : Str} (h : matchHMS l = some (a, b, c)) :
    a ≠ [] ∧ (∀ x ∈ a, x.isDigit = true) ∧ b ≠ [] ∧ (∀ x ∈ b, x.isDigit = true) ∧
    (parseDecimal a).isSome = true ∧ (parseDecimal b).isSome = true ∧
    (parseDecimal c).isSome = true ∧
    ∃ d3 r, d3 ≠ [] ∧ (∀ x ∈ d3, x.isDigit = true) ∧ l = a ++ ':' :: (b ++ ':' :: (d3 ++ r)) := by
  have hparse : ∀ (d : Str), d ≠ [] → (∀ x ∈ d, x.isDigit = true) →
      (parseDecimal d).isSome = true := by
    intro d hne hd
    have hs := span_all hd
    have hE : d.isEmpty = false := by
      cases d with
      | nil => exact absurd rfl hne
      | cons _ _ => rfl
    simp [parseDecimal, hs.1, hs.2, hE]
  have hparse2 : ∀ (d f : Str), d ≠ [] → (∀ x ∈ d, x.isDigit = true) →
      (∀ x ∈ f, x.isDigit = true) → (parseDecimal (d ++ '.' :: f)).isSome = true := by
    intro d f hne hd hf
    have hdot : Char.isDigit '.' = false := by decide
    have hs := span_append hd hdot f
    have hE : d.isEmpty = false := by
      cases d with
      | nil => exact absurd rfl hne
      | cons _ _ => rfl
    have hEapp : (d ++ '.' :: f).takeWhile Char.isDigit = d := hs.1
    have hfall : f.all Char.isDigit = true := List.all_eq_true.mpr hf
    simp [parseDecimal, hEapp, hs.2, hE, hfall]
  simp only [matchHMS] at h
  split at h
  · exact absurd h (by simp)
  · rename_i hE1
    split at h
    · rename_i r2 heq1
      split at h
      · exact absurd h (by simp)
      · rename_i hE2
        split at h
        · rename_i r4 heq2
          split at h
          · exact absurd h (by simp)
          · rename_i hE3
            have hta : ∀ x ∈ l.takeWhile Char.isDigit, x.isDigit = true :=
              fun x hx => List.mem_takeWhile_imp hx
            have htb : ∀ x ∈ r2.takeWhile Char.isDigit, x.isDigit = true :=
              fun x hx => List.mem_takeWhile_imp hx
            have htc : ∀ x ∈ r4.takeWhile Char.isDigit, x.isDigit = true :=
              fun x hx => List.mem_takeWhile_imp hx
            have hne1 : l.takeWhile Char.isDigit ≠ [] := by
              intro hx
              rw [hx] at hE1
              exact hE1 rfl
            have hne2 : r2.takeWhile Char.isDigit ≠ [] := by
              intro hx
              rw [hx] at hE2
              exact hE2 rfl
            have hne3 : r4.takeWhile Char.isDigit ≠ [] := by
              intro hx
              rw [hx] at hE3
              exact hE3 rfl
            have hldec : l = l.takeWhile Char.isDigit ++ ':' :: r2 := by
              rw [← heq1]
              exact (List.takeWhile_append_dropWhile Char.isDigit l).symm
            have hr2dec : r2 = r2.takeWhile Char.isDigit ++ ':' :: r4 := by
              rw [← heq2]
              exact (List.takeWhile_append_dropWhile Char.isDigit r2).symm
            split at h
            · rename_i r6 heq3
              injection h with h
              injection h with ha h
              injection h with hb hc
              subst ha
              subst hb
              refine ⟨hne1, hta, hne2, htb, hparse _ hne1 hta, hparse _ hne2 htb, ?_, ?_⟩
              · rw [← hc]
                exact hparse2 _ _ hne3 htc
                  (fun x hx => List.mem_takeWhile_imp hx)
              · refine ⟨r4.takeWhile Char.isDigit, r4.dropWhile Char.isDigit, hne3, htc, ?_⟩
                rw [List.takeWhile_append_dropWhile]
                conv_lhs => rw [hldec, hr2dec]
            · injection h with h
              injection h with ha h
              injection h with hb hc
              subst ha
              subst hb
              refine ⟨hne1, hta, hne2, htb, hparse _ hne1 hta, hparse _ hne2 htb, ?_, ?_⟩
              · rw [← hc]
                exact hparse _ hne3 htc
              · refine ⟨r4.takeWhile Char.isDigit, r4.dropWhile Char.isDigit, hne3, htc, ?_⟩
                rw [List.takeWhile_append_dropWhile]
                conv_lhs => rw [hldec, hr2dec]
        · exact absurd h (by simp)
    · exact absurd h (by simp)

theorem searchLit_eq_some {α : Type} {lit : Str} {m : Str → Option α} :
    ∀ {s : Str} {v : α}, searchLit lit m s = some v →
    ∃ p r, s = p ++ (lit ++ r) ∧ m r = some v := by
  intro s
  induction s with
  | nil =>
    intro v h
    simp [searchLit] at h
  | cons c t ih =>
    intro v h
    rw [searchLit] at h
    cases hd : dropLit lit (c :: t) with
    | some r =>
      simp only [hd] at h
      cases hm : m r with
      | some v0 =>
        simp only [hm] at h
        injection h with h
        subst h
        exact ⟨[], r, by simpa using dropLit_eq_some.mp hd, hm⟩
      | none =>
        simp only [hm] at h
        obtain ⟨p, r0, hs, hmr⟩ := ih h
        exact ⟨c :: p, r0, by rw [List.cons_append, ← hs], hmr⟩
    | none =>
      simp only [hd] at h
      obtain ⟨p, r0, hs, hmr⟩ := ih h
      exact ⟨c :: p, r0, by rw [List.cons_append, ← hs], hmr⟩

theorem searchLit_isSome_of {α : Type} {lit : Str} (hlit : lit ≠ []) {m : Str → Option α} :
    ∀ (p : Str) {r : Str}, (m r).isSome = true →
    (searchLit lit m (p ++ (lit ++ r))).isSome = true := by
  intro p
  induction p with
  | nil =>
    intro r hm
    obtain ⟨a, lt, rfl⟩ : ∃ a lt, lit = a :: lt := by
      cases lit with
      | nil => exact absurd rfl hlit
      | cons a lt => exact ⟨a, lt, rfl⟩
    rw [List.nil_append, List.cons_append, searchLit]
    rw [show dropLit (a :: lt) (a :: (lt ++ r)) = some r from
      dropLit_eq_some.mpr (List.cons_append a lt r).symm]
    cases hmr : m r with
    | some v => simp [hmr]
    | none =>
      rw [hmr] at hm
      simp at hm
  | cons c p' ih =>
    intro r hm
    rw [List.cons_append, searchLit]
    cases hd : dropLit lit (c :: (p' ++ (lit ++ r))) with
    | some r0 =>
      cases hm0 : m r0 with
      | some v => simp [hd, hm0]
      | none =>
        simp only [hd, hm0]
        exact ih hm
    | none =>
      simp only [hd]
      exact ih hm

theorem searchLit_map {α β : Type} (lit : Str) (m : Str → Option α) (f : α → β) :
    ∀ s : Str, searchLit lit (fun l => (m l).map f) s = (searchLit lit m s).map f := by
  intro s
  induction s with
  | nil => simp [searchLit]
  | cons c t ih =>
    rw [searchLit, searchLit]
    cases hd : dropLit lit (c :: t) with
    | some r =>
      cases hm : m r with
      | some v => simp [hm]
      | none => simp [hm, ih]
    | none => simp [ih]

theorem containsLitHMS_iff {lit : Str} (hlit : lit ≠ []) (s : Str) :
    (searchLit lit matchHMS s).isSome = true ↔ ContainsLitHMS lit s := by
  constructor
  · intro h
    obtain ⟨caps, hv⟩ := Option.isSome_iff_exists.mp h
    obtain ⟨p, r0, hs, hmr⟩ := searchLit_eq_some hv
    obtain ⟨a, b, c⟩ := caps
    obtain ⟨hne1, hall1, hne2, hall2, _, _, _, d3, rr, hne3, hall3, hdec⟩ := matchHMS_eq_some hmr
    exact ⟨p, a, b, d3, rr, hne1, hall1, hne2, hall2, hne3, hall3, by rw [hs, hdec]⟩
  · rintro ⟨p, d1, d2, d3, r, hne1, hall1, hne2, hall2, hne3, hall3, rfl⟩
    exact searchLit_isSome_of hlit p
      (matchHMS_isSome_of r hne1 hall1 hne2 hall2 hne3 hall3)

/-- C2: for every input line and total duration `D`, `parse_progress`
returns a record iff the line contains a `time=HH:MM:SS(.frac)?` token;
on a match the record's time is `H*3600 + M*60 + S` taken from the
(leftmost, greedy) captures, the percent is `min(time/D*100, 100)` when
`D > 0` and `0` when `D = 0`, the speed is the captured `speed=<n>x`
token (defaulting to `"N/A"`) and the size is the captured `size=`
token (defaulting to `"0kB"`). -/
theorem C2_parse_progress_spec (line : Str) (D : Rat) :
    ((parse_progress line D).isSome = true ↔ ContainsLitHMS timeLit line)
    ∧ (∀ p, parse_progress line D = some p →
        (∃ caps, searchLit timeLit matchHMS line = some caps ∧ p.time = hmsVal caps)
        ∧ (D > 0 → p.percent = min (p.time / D * 100) 100)
        ∧ (D = 0 → p.percent = 0)
        ∧ p.speed = (searchLit "speed=".data matchSpeedTail line).getD "N/A".data
        ∧ p.size = (searchLit "size=".data matchSizeTail line).getD "0kB".data) := by
  have hlit : timeLit ≠ [] := by decide
  constructor
  · rw [← containsLitHMS_iff hlit line]
    unfold parse_progress
    cases h : searchLit timeLit matchHMS line <;> simp
  · intro p hp
    unfold parse_progress at hp
    cases h : searchLit timeLit matchHMS line with
    | none =>
      rw [h] at hp
      exact absurd hp (by simp)
    | some caps =>
      rw [h] at hp
      injection hp with hp
      subst hp
      refine ⟨⟨caps, rfl, rfl⟩, ?_, ?_, rfl, rfl⟩
      · intro hD
        simp only [hD, if_true, ratMin_eq_min]
      · intro hD
        subst hD
        simp only [lt_irrefl, if_neg]
        simp

/-- C8: `parse_duration` returns `H*3600 + M*60 + S` exactly when the
text contains a `Duration: HH:MM:SS(.frac)?` pattern (taking the
leftmost match's captures, all three of which parse as numbers), and
returns `0.0` when the pattern is absent. -/
theorem C8_parse_duration_spec (s : Str) :
    ((searchLit durLit matchHMS s).isSome = true ↔ ContainsLitHMS durLit s)
    ∧ (∀ caps, searchLit durLit matchHMS s = some caps →
        parse_duration s = hmsVal caps ∧ (parseDecimal caps.1).isSome = true ∧
        (parseDecimal caps.2.1).isSome = true ∧ (parseDecimal caps.2.2).isSome = true)
    ∧ (¬ ContainsLitHMS durLit s → parse_duration s = 0) := by
  have hlit : durLit ≠ [] := by decide
  refine ⟨containsLitHMS_iff hlit s, ?_, ?_⟩
  · intro caps hcaps
    obtain ⟨a, b, c⟩ := caps
    obtain ⟨p, r0, hs, hmr⟩ := searchLit_eq_some hcaps
    obtain ⟨_, _, _, _, hpa, hpb, hpc, _⟩ := matchHMS_eq_some hmr
    exact ⟨by simp [parse_duration, hcaps], hpa, hpb, hpc⟩
  · intro hnc
    rw [← containsLitHMS_iff hlit s] at hnc
    cases h : searchLit durLit matchHMS s with
    | none => simp [parse_duration, h]
    | some caps => exact absurd (by simp [h]) hnc

/-- C10: both parsers are total and panic-free: with every `unwrap` on
a regex capture modelled as a fallible step (`none` = panic), the
checked variants return `some` on every input and agree with the direct
functions; moreover, when the anchoring pattern matches, all three
capture groups parse successfully as numbers (the `unwrap_or(0.0)`
fallback is present but never needed for a matching line). -/
theorem C10_parsers_total (s line : Str) (D : Rat) :
    parse_durationChecked s = some (parse_duration s)
    ∧ parse_progressChecked line D = some (parse_progress line D)
    ∧ (∀ caps, searchLit timeLit matchHMS line = some caps →
        (parseDecimal caps.1).isSome = true ∧ (parseDecimal caps.2.1).isSome = true ∧
        (parseDecimal caps.2.2).isSome = true) := by
  refine ⟨?_, ?_, ?_⟩
  · cases h : searchLit durLit matchHMS s with
    | none => simp [parse_durationChecked, parse_duration, h]
    | some caps =>
      obtain ⟨a, b, c⟩ := caps
      simp [parse_durationChecked, parse_duration, h, capsList, hmsVal, capVal]
  · have hspm := searchLit_map "speed=".data matchSpeedTail
      (fun v => ([some v] : List (Option Str))) line
    have hszm := searchLit_map "size=".data matchSizeTail
      (fun v => ([some v] : List (Option Str))) line
    cases h : searchLit timeLit matchHMS line with
    | none => simp [parse_progressChecked, parse_progress, h]
    | some caps =>
      obtain ⟨a, b, c⟩ := caps
      cases hsp : searchLit "speed=".data matchSpeedTail line <;>
        cases hsz : searchLit "size=".data matchSizeTail line <;>
          simp [parse_progressChecked, parse_progress, h, hspm, hszm, hsp, hsz, capsList,
            hmsVal, capVal]
  · intro caps hcaps
    obtain ⟨a, b, c⟩ := caps
    obtain ⟨p, r0, hs, hmr⟩ := searchLit_eq_some hcaps
    obtain ⟨_, _, _, _, hpa, hpb, hpc, _⟩ := matchHMS_eq_some hmr
    exact ⟨hpa, hpb, hpc⟩

theorem parseDecimal_digits {d : Str} (hne : d ≠ []) (hd : ∀ c ∈ d, c.isDigit = true) :
    parseDecimal d = some (digitsToNat d : Rat) := by
  have hs := span_all hd
  have hE : d.isEmpty = false := by
    cases d with
    | nil => exact absurd rfl hne
    | cons _ _ => rfl
  simp [parseDecimal, hs.1, hs.2, hE]

theorem parseDecimal_point {d f : Str} (hne : d ≠ []) (hd : ∀ c ∈ d, c.isDigit = true)
    (hf : ∀ c ∈ f, c.isDigit = true) :
    parseDecimal (d ++ '.' :: f)
      = some ((digitsToNat d : Rat) + (digitsToNat f : Rat) / 10 ^ f.length) := by
  have hdot : Char.isDigit '.' = false := by decide
  have hs := span_append hd hdot f
  have hE : d.isEmpty = false := by
    cases d with
    | nil => exact absurd rfl hne
    | cons _ _ => rfl
  have hfall : f.all Char.isDigit = true := List.all_eq_true.mpr hf
  simp [parseDecimal, hs.1, hs.2, hE, hfall]

theorem capVal_digits {d : Str} (hne : d ≠ []) (hd : ∀ c ∈ d, c.isDigit = true) :
    capVal d = (digitsToNat d : Rat) := by
  rw [capVal, parseDecimal_digits hne hd]
  rfl

theorem capVal_point {d f : Str} (hne : d ≠ []) (hd : ∀ c ∈ d, c.isDigit = true)
    (hf : ∀ c ∈ f, c.isDigit = true) :
    capVal (d ++ '.' :: f) = (digitsToNat d : Rat) + (digitsToNat f : Rat) / 10 ^ f.length := by
  rw [capVal, parseDecimal_point hne hd hf]
  rfl

/-- The example progress line used by the witnesses. -/
def c2line : Str := "size= 1024kB time=00:00:10.00 speed=1.5x".data

/-- The example probe header used by the witnesses. -/
def c8text : Str := "Duration: 00:01:30.50, start: 0.000000, bitrate: 128 kb/s".data

theorem c2line_parsed : parse_progress c2line 20 = some ⟨50, 10, "1.5x".data, "1024kB".data⟩ := by
  have hsearch : searchLit timeLit matchHMS c2line
      = some ("00".data, "00".data, "10.00".data) := by decide
  have hspeed : searchLit "speed=".data matchSpeedTail c2line = some "1.5x".data := by decide
  have hsize : searchLit "size=".data matchSizeTail c2line = some "1024kB".data := by decide
  have hcap00 : capVal "00".data = 0 := by
    rw [capVal_digits (by decide) (by decide)]
    norm_num [show digitsToNat "00".data = 0 from by decide]
  have hsplit : ("10.00".data : Str) = "10".data ++ '.' :: "00".data := by decide
  have hcap10 : capVal "10.00".data = 10 := by
    rw [hsplit, capVal_point (by decide) (by decide) (by decide)]
    norm_num [show digitsToNat "10".data = 10 from by decide,
      show digitsToNat "00".data = 0 from by decide]
  have hhms : hmsVal ("00".data, "00".data, "10.00".data) = 10 := by
    rw [hmsVal]
    simp only [hcap00, hcap10]
    norm_num
  rw [parse_progress]
  rw [hsearch]
  simp only [hhms, hspeed, hsize]
  rw [if_pos (by norm_num : (20:Rat) > 0)]
  rw [show ratMin ((10:Rat) / 20 * 100) 100 = 50 by
    rw [ratMin_eq_min]
    norm_num]
  rfl

/-- C2 witness: the example line `size= 1024kB time=00:00:10.00
speed=1.5x` with total duration 20 satisfies all hypotheses of the C2
theorem: it contains the time token, and the parsed record's percent
obeys the clamped formula with time = 10. -/
theorem C2_parse_progress_spec_witness :
    ContainsLitHMS timeLit c2line ∧ (20:Rat) > 0
    ∧ ∃ p, parse_progress c2line 20 = some p ∧ p.percent = min (p.time / 20 * 100) 100
        ∧ p.time = 10 ∧ p.speed = "1.5x".data ∧ p.size = "1024kB".data := by
  have h20 : (20:Rat) > 0 := by norm_num
  refine ⟨(C2_parse_progress_spec c2line 20).1.mp (by rw [c2line_parsed]; rfl), h20,
    ⟨_, c2line_parsed, ?_, rfl, rfl, rfl⟩⟩
  exact ((C2_parse_progress_spec c2line 20).2 _ c2line_parsed).2.1 h20

/-- C8 witness: the example header `Duration: 00:01:30.50, ...` parses
to 90.5 seconds, via the C8 theorem applied to the concrete captures. -/
theorem C8_parse_duration_spec_witness : parse_duration c8text = 181/2 := by
  have hsearch : searchLit durLit matchHMS c8text
      = some ("00".data, "01".data, "30.50".data) := by decide
  have h1 := ((C8_parse_duration_spec c8text).2.1 _ hsearch).1
  rw [h1, hmsVal]
  have hcap00 : capVal "00".data = 0 := by
    rw [capVal_digits (by decide) (by decide)]
    norm_num [show digitsToNat "00".data = 0 from by decide]
  have hcap01 : capVal "01".data = 1 := by
    rw [capVal_digits (by decide) (by decide)]
    norm_num [show digitsToNat "01".data = 1 from by decide]
  have hsplit : ("30.50".data : Str) = "30".data ++ '.' :: "50".data := by decide
  have hcap305 : capVal "30.50".data = 61/2 := by
    rw [hsplit, capVal_point (by decide) (by decide) (by decide)]
    norm_num [show digitsToNat "30".data = 30 from by decide,
      show digitsToNat "50".data = 50 from by decide]
  simp only [hcap00, hcap01, hcap305]
  norm_num

/-- C10 witness: the checked (panic-modelling) duration parser agrees
with the direct one on the example header, and the first time capture
of the example progress line parses as a number. -/
theorem C10_parsers_total_witness :
    parse_durationChecked c8text = some (parse_duration c8text)
    ∧ (parseDecimal "00".data).isSome = true := by
  have hsearch : searchLit timeLit matchHMS c2line
      = some ("00".data, "00".data, "10.00".data) := by decide
  exact ⟨(C10_parsers_total c8text c2line 20).1,
    (((C10_parsers_total c8text c2line 20).2.2) _ hsearch).1⟩

/- ----------------------------------------------------------------
   Stage-shape infrastructure: every filter stage is some known
   literal followed by a rest, which rules equal/prefix clashes out.
   ---------------------------------------------------------------- -/

/-- `s` is one of the literals of `L` followed by some rest. -/
def stageShape (L : List Str) (s : Str) : Prop := ∃ l, l ∈ L ∧ ∃ r, s = l ++ r

/-- The boolean check that every literal of `L` differs from `p` on
their common prefix. -/
def clashAllB (L : List Str) (p : Str) : Bool :=
  L.all (fun l => !(l.take (min p.length l.length) == p.take (min p.length l.length)))

theorem shape_of_lit {L : List Str} {l : Str} (r : Str) (hl : l ∈ L) : stageShape L (l ++ r) :=
  ⟨l, hl, r, rfl⟩

theorem shape_of_self {L : List Str} {l : Str} (hl : l ∈ L) : stageShape L l :=
  ⟨l, hl, [], (List.append_nil l).symm⟩

theorem stageShape_mono {L L' : List Str} {s : Str} (h : stageShape L s)
    (hsub : ∀ x ∈ L, x ∈ L') : stageShape L' s := by
  obtain ⟨l, hl, r, rfl⟩ := h
  exact ⟨l, hsub l hl, r, rfl⟩

theorem stageShape_ne {L : List Str} {p s : Str} (hB : clashAllB L p = true)
    (hs : stageShape L s) : s ≠ p ∧ ¬ p <+: s := by
  obtain ⟨l, hl, r, rfl⟩ := hs
  have hclash : ¬ l.take (min p.length l.length) = p.take (min p.length l.length) := by
    have := List.all_eq_true.mp hB l hl
    simpa using this
  constructor
  · intro he
    apply hclash
    have h2 : (l ++ r).take (min p.length l.length) = l.take (min p.length l.length) :=
      List.take_append_of_le_length (min_le_right _ _)
    rw [← h2, he]
  · rintro ⟨t, ht⟩
    apply hclash
    have h1 : (p ++ t).take (min p.length l.length) = p.take (min p.length l.length) :=
      List.take_append_of_le_length (min_le_left _ _)
    have h2 : (l ++ r).take (min p.length l.length) = l.take (min p.length l.length) :=
      List.take_append_of_le_length (min_le_right _ _)
    rw [← h1, ht, h2]

theorem joinComma_shape {L : List Str} : ∀ {vf : List Str}, vf ≠ [] →
    (∀ s ∈ vf, stageShape L s) → stageShape L (joinComma vf) := by
  intro vf
  match vf with
  | [] => exact fun h _ => absurd rfl h
  | [s] =>
    intro _ hall
    exact hall s (List.mem_singleton.mpr rfl)
  | s :: t :: rest =>
    intro _ hall
    obtain ⟨l, hl, r, hs⟩ := hall s (List.mem_cons_self s (t :: rest))
    refine ⟨l, hl, r ++ ',' :: joinComma (t :: rest), ?_⟩
    rw [joinComma, hs, List.append_assoc]

theorem mem_ite_nil {α : Type} {c : Prop} [Decidable c] {l : List α} {s : α}
    (h : s ∈ (if c then l else [])) : s ∈ l := by
  split at h
  · exact h
  · simp at h

/-- The literal head of the subtitles stage. -/
def subLit : Str := "subtitles=".data ++ [qc]

/-- The literal head of the drawtext stage. -/
def textLit : Str := "drawtext=text=".data ++ [qc]

def vfPreLits : List Str := ["yadif".data, "hqdn3d=luma_tmp=".data]

def vfSpeedLits : List Str := ["setpts=".data]

def vfRotLits : List Str := ["transpose=1".data, "transpose=2,transpose=2".data, "transpose=2".data]

def vfCropLits : List Str := ["crop=in_w-".data]

def vfScaleLits : List Str := ["scale=".data]

def vfFlipLits : List Str := ["hflip".data, "vflip".data]

def vfColorLits : List Str :=
  ["eq=brightness=".data, "hue=h=".data, "boxblur=".data, "unsharp=5:5:".data, "vignette=a=".data]

def vfFadeLits : List Str := ["fade=t=in:st=".data, "fade=t=out:st=".data]

def vfSubLits : List Str := [subLit]

def vfTextLits : List Str := [textLit]

def vfGifLits : List Str :=
  ["fps=15,scale=480:-1:flags=lanczos,split[s0][s1];[s0]palettegen[p];[s1][p]paletteuse".data]

/-- All literal heads a simple video-filter stage can start with. -/
def vfLitsAll : List Str :=
  vfPreLits ++ vfSpeedLits ++ vfRotLits ++ vfCropLits ++ vfScaleLits ++ vfFlipLits ++
  vfColorLits ++ vfFadeLits ++ vfSubLits ++ vfTextLits ++ vfGifLits

def afNoiseLits : List Str := ["afftdn=nr=".data]

def afSpeedLits : List Str := ["atempo=".data]

def afVolumeLits : List Str := ["volume=".data]

def afEqLits : List Str :=
  ["equalizer=f=100:t=h:w=200:g=".data, "equalizer=f=1000:t=h:w=500:g=".data,
   "equalizer=f=10000:t=h:w=2000:g=".data]

def afCompLits : List Str := ["acompressor=threshold=".data]

def afNormLits : List Str := ["loudnorm=I=".data]

def afFadeLits : List Str := ["afade=t=in:st=".data, "afade=t=out:st=".data]

/-- All literal heads an audio-filter stage can start with. -/
def afLitsAll : List Str :=
  afNoiseLits ++ afSpeedLits ++ afVolumeLits ++ afEqLits ++ afCompLits ++ afNormLits ++ afFadeLits

theorem append_cons_eq (a : Str) (x : Char) (b : Str) : a ++ x :: b = (a ++ [x]) ++ b := by
  simp

theorem vfPre_shape (o : ConvertOptions) : ∀ s ∈ vfPre o, stageShape vfPreLits s := by
  intro s hs
  unfold vfPre at hs
  cases htr : o.video_transform with
  | none => simp [htr] at hs
  | some t =>
    simp only [htr] at hs
    rcases List.mem_append.mp hs with h | h
    · rw [show s = "yadif".data from List.mem_singleton.mp (mem_ite_nil h)]
      exact shape_of_self (by simp [vfPreLits])
    · rw [List.mem_singleton.mp (mem_ite_nil h)]
      exact shape_of_lit _ (by simp [vfPreLits])

theorem vfSpeed_shape (o : ConvertOptions) : ∀ s ∈ vfSpeed o, stageShape vfSpeedLits s := by
  intro s hs
  unfold vfSpeed at hs
  cases hsp : o.playback_speed with
  | none => simp [hsp] at hs
  | some speed =>
    simp only [hsp] at hs
    rw [List.mem_singleton.mp (mem_ite_nil hs)]
    rw [List.append_assoc]
    exact shape_of_lit _ (by simp [vfSpeedLits])

theorem vfRot_shape (o : ConvertOptions) : ∀ s ∈ vfRot o, stageShape vfRotLits s := by
  intro s hs
  unfold vfRot at hs
  cases htr : o.video_transform with
  | none => simp [htr] at hs
  | some t =>
    simp only [htr] at hs
    split at hs
    · rw [List.mem_singleton.mp hs]
      exact shape_of_self (by simp [vfRotLits])
    · rw [List.mem_singleton.mp hs]
      exact shape_of_self (by simp [vfRotLits])
    · rw [List.mem_singleton.mp hs]
      exact shape_of_self (by simp [vfRotLits])
    · simp at hs

theorem vfCrop_shape (o : ConvertOptions) : ∀ s ∈ vfCrop o, stageShape vfCropLits s := by
  intro s hs
  unfold vfCrop at hs
  cases htr : o.video_transform with
  | none => simp [htr] at hs
  | some t =>
    simp only [htr] at hs
    rw [List.mem_singleton.mp (mem_ite_nil hs)]
    simp only [List.append_assoc]
    exact shape_of_lit _ (by simp [vfCropLits])

theorem vfScale_shape (o : ConvertOptions) : ∀ s ∈ vfScale o, stageShape vfScaleLits s := by
  intro s hs
  unfold vfScale at hs
  rw [List.mem_singleton.mp (mem_ite_nil hs)]
  simp only [List.append_assoc]
  exact shape_of_lit _ (by simp [vfScaleLits])

theorem vfFlip_shape (o : ConvertOptions) : ∀ s ∈ vfFlip o, stageShape vfFlipLits s := by
  intro s hs
  unfold vfFlip at hs
  cases htr : o.video_transform with
  | none => simp [htr] at hs
  | some t =>
    simp only [htr] at hs
    rcases List.mem_append.mp hs with h | h
    · rw [List.mem_singleton.mp (mem_ite_nil h)]
      exact shape_of_self (by simp [vfFlipLits])
    · rw [List.mem_singleton.mp (mem_ite_nil h)]
      exact shape_of_self (by simp [vfFlipLits])

theorem vfColor_shape (o : ConvertOptions) : ∀ s ∈ vfColor o, stageShape vfColorLits s := by
  intro s hs
  unfold vfColor at hs
  cases hf : o.filters with
  | none => simp [hf] at hs
  | some f =>
    simp only [hf] at hs
    rcases List.mem_append.mp hs with h | h
    · rcases List.mem_append.mp h with h | h
      · rcases List.mem_append.mp h with h | h
        · rcases List.mem_append.mp h with h | h
          · rw [List.mem_singleton.mp h]
            simp only [List.append_assoc]
            exact shape_of_lit _ (by simp [vfColorLits])
          · rw [List.mem_singleton.mp (mem_ite_nil h)]
            exact shape_of_lit _ (by simp [vfColorLits])
        · rw [List.mem_singleton.mp (mem_ite_nil h)]
          exact shape_of_lit _ (by simp [vfColorLits])
      · rw [List.mem_singleton.mp (mem_ite_nil h)]
        exact shape_of_lit _ (by simp [vfColorLits])
    · rw [List.mem_singleton.mp (mem_ite_nil h)]
      exact shape_of_lit _ (by simp [vfColorLits])

theorem vfFade_shape (o : ConvertOptions) (D : Rat) :
    ∀ s ∈ vfFade o D, stageShape vfFadeLits s := by
  intro s hs
  unfold vfFade at hs
  cases htr : o.video_transform with
  | none => simp [htr] at hs
  | some t =>
    simp only [htr] at hs
    rcases List.mem_append.mp hs with h | h
    · rw [List.mem_singleton.mp (mem_ite_nil h)]
      simp only [List.append_assoc]
      exact shape_of_lit _ (by simp [vfFadeLits])
    · rw [List.mem_singleton.mp (mem_ite_nil h)]
      simp only [List.append_assoc]
      exact shape_of_lit _ (by simp [vfFadeLits])

theorem vfSub_shape (o : ConvertOptions) : ∀ s ∈ vfSub o, stageShape vfSubLits s := by
  intro s hs
  unfold vfSub at hs
  cases hsp : o.subtitle_path with
  | none => simp [hsp] at hs
  | some p =>
    simp only [hsp] at hs
    rw [List.mem_singleton.mp hs, append_cons_eq]
    exact shape_of_lit _ (by simp [vfSubLits, subLit])

theorem vfText_shape (o : ConvertOptions) : ∀ s ∈ vfText o, stageShape vfTextLits s := by
  intro s hs
  unfold vfText at hs
  cases hov : o.overlays with
  | none => simp [hov] at hs
  | some ov =>
    simp only [hov] at hs
    cases ht : ov.text with
    | none => simp [ht] at hs
    | some t =>
      simp only [ht] at hs
      rw [List.mem_singleton.mp hs, append_cons_eq]
      exact shape_of_lit _ (by simp [vfTextLits, textLit])

theorem vfGif_shape (o : ConvertOptions) : ∀ s ∈ vfGif o, stageShape vfGifLits s := by
  intro s hs
  unfold vfGif at hs
  rw [List.mem_singleton.mp (mem_ite_nil hs)]
  exact shape_of_self (by simp [vfGifLits])

theorem vfFilters_shape (o : ConvertOptions) (D : Rat) :
    ∀ s ∈ vfFilters o D, stageShape vfLitsAll s := by
  intro s hs
  unfold vfFilters at hs
  have hsub : ∀ (L : List Str), (∀ x ∈ L, x ∈ vfLitsAll) → stageShape L s → stageShape vfLitsAll s :=
    fun L h hl => stageShape_mono hl h
  simp only [List.mem_append] at hs
  rcases hs with ((((((((((h | h) | h) | h) | h) | h) | h) | h) | h) | h) | h)
  · exact hsub _ (by intro x hx; unfold vfLitsAll; simp only [List.mem_append]; tauto) (vfPre_shape o s h)
  · exact hsub _ (by intro x hx; unfold vfLitsAll; simp only [List.mem_append]; tauto) (vfSpeed_shape o s h)
  · exact hsub _ (by intro x hx; unfold vfLitsAll; simp only [List.mem_append]; tauto) (vfRot_shape o s h)
  · exact hsub _ (by intro x hx; unfold vfLitsAll; simp only [List.mem_append]; tauto) (vfCrop_shape o s h)
  · exact hsub _ (by intro x hx; unfold vfLitsAll; simp only [List.mem_append]; tauto) (vfScale_shape o s h)
  · exact hsub _ (by intro x hx; unfold vfLitsAll; simp only [List.mem_append]; tauto) (vfFlip_shape o s h)
  · exact hsub _ (by intro x hx; unfold vfLitsAll; simp only [List.mem_append]; tauto) (vfColor_shape o s h)
  · exact hsub _ (by intro x hx; unfold vfLitsAll; simp only [List.mem_append]; tauto) (vfFade_shape o D s h)
  · exact hsub _ (by intro x hx; unfold vfLitsAll; simp only [List.mem_append]; tauto) (vfSub_shape o s h)
  · exact hsub _ (by intro x hx; unfold vfLitsAll; simp only [List.mem_append]; tauto) (vfText_shape o s h)
  · exact hsub _ (by intro x hx; unfold vfLitsAll; simp only [List.mem_append]; tauto) (vfGif_shape o s h)

theorem afNoise_shape (o : ConvertOptions) : ∀ s ∈ afNoise o, stageShape afNoiseLits s := by
  intro s hs
  unfold afNoise at hs
  cases haf : o.audio_filters with
  | none => simp [haf] at hs
  | some af =>
    simp only [haf] at hs
    rw [List.mem_singleton.mp (mem_ite_nil hs)]
    exact shape_of_lit _ (by simp [afNoiseLits])

theorem afSpeed_shape (o : ConvertOptions) : ∀ s ∈ afSpeed o, stageShape afSpeedLits s := by
  intro s hs
  unfold afSpeed at hs
  cases hsp : o.playback_speed with
  | none => simp [hsp] at hs
  | some speed =>
    simp only [hsp] at hs
    rw [List.mem_singleton.mp (mem_ite_nil hs)]
    exact shape_of_lit _ (by simp [afSpeedLits])

theorem afVolume_shape (o : ConvertOptions) : ∀ s ∈ afVolume o, stageShape afVolumeLits s := by
  intro s hs
  unfold afVolume at hs
  cases hv : o.audio_volume with
  | none => simp [hv] at hs
  | some vol =>
    simp only [hv] at hs
    rw [List.mem_singleton.mp (mem_ite_nil hs)]
    exact shape_of_lit _ (by simp [afVolumeLits])

theorem afEq_shape (o : ConvertOptions) : ∀ s ∈ afEq o, stageShape afEqLits s := by
  intro s hs
  unfold afEq at hs
  cases haf : o.audio_filters with
  | none => simp [haf] at hs
  | some af =>
    simp only [haf] at hs
    have h3 := mem_ite_nil hs
    simp only [List.mem_cons, List.not_mem_nil, or_false] at h3
    rcases h3 with rfl | rfl | rfl
    · exact shape_of_lit _ (by simp [afEqLits])
    · exact shape_of_lit _ (by simp [afEqLits])
    · exact shape_of_lit _ (by simp [afEqLits])

theorem afComp_shape (o : ConvertOptions) : ∀ s ∈ afComp o, stageShape afCompLits s := by
  intro s hs
  unfold afComp at hs
  cases haf : o.audio_filters with
  | none => simp [haf] at hs
  | some af =>
    simp only [haf] at hs
    rw [List.mem_singleton.mp (mem_ite_nil hs)]
    simp only [List.append_assoc]
    exact shape_of_lit _ (by simp [afCompLits])

theorem afNorm_shape (o : ConvertOptions) : ∀ s ∈ afNorm o, stageShape afNormLits s := by
  intro s hs
  unfold afNorm at hs
  cases haf : o.audio_filters with
  | none => simp [haf] at hs
  | some af =>
    simp only [haf] at hs
    rw [List.mem_singleton.mp (mem_ite_nil hs)]
    simp only [List.append_assoc]
    exact shape_of_lit _ (by simp [afNormLits])

theorem afFade_shape (o : ConvertOptions) (D : Rat) :
    ∀ s ∈ afFade o D, stageShape afFadeLits s := by
  intro s hs
  unfold afFade at hs
  cases haf : o.audio_filters with
  | none => simp [haf] at hs
  | some af =>
    simp only [haf] at hs
    rcases List.mem_append.mp hs with h | h
    · rw [List.mem_singleton.mp (mem_ite_nil h)]
      simp only [List.append_assoc]
      exact shape_of_lit _ (by simp [afFadeLits])
    · rw [List.mem_singleton.mp (mem_ite_nil h)]
      simp only [List.append_assoc]
      exact shape_of_lit _ (by simp [afFadeLits])

theorem afFilters_shape (o : ConvertOptions) (D : Rat) :
    ∀ s ∈ afFilters o D, stageShape afLitsAll s := by
  intro s hs
  unfold afFilters at hs
  have hsub : ∀ (L : List Str), (∀ x ∈ L, x ∈ afLitsAll) → stageShape L s → stageShape afLitsAll s :=
    fun L h hl => stageShape_mono hl h
  simp only [List.mem_append] at hs
  rcases hs with ((((((h | h) | h) | h) | h) | h) | h)
  · exact hsub _ (by intro x hx; unfold afLitsAll; simp only [List.mem_append]; tauto) (afNoise_shape o s h)
  · exact hsub _ (by intro x hx; unfold afLitsAll; simp only [List.mem_append]; tauto) (afSpeed_shape o s h)
  · exact hsub _ (by intro x hx; unfold afLitsAll; simp only [List.mem_append]; tauto) (afVolume_shape o s h)
  · exact hsub _ (by intro x hx; unfold afLitsAll; simp only [List.mem_append]; tauto) (afEq_shape o s h)
  · exact hsub _ (by intro x hx; unfold afLitsAll; simp only [List.mem_append]; tauto) (afComp_shape o s h)
  · exact hsub _ (by intro x hx; unfold afLitsAll; simp only [List.mem_append]; tauto) (afNorm_shape o s h)
  · exact hsub _ (by intro x hx; unfold afLitsAll; simp only [List.mem_append]; tauto) (afFade_shape o D s h)

/-- An all-`None`/false `ConvertOptions`. -/
def oDefault : ConvertOptions :=
  ⟨"i".data, "o".data, none, none, none, none, none, none, none, none, false, none, none,
   none, none, none, none, none, none, none, none, none⟩

/-- C1: the complex-graph branch is taken exactly when an image overlay
is present: with an overlay the argument list starts with
`-filter_complex <graph> -map [outv]`, the flag is true, and (unless
the job is audio-only) `-map 0:a` is appended after the audio
arguments; without an overlay the flag is false, no `-filter_complex`
is emitted, and `-vf` appears iff the simple chain is non-empty. -/
theorem C1_complex_branch (o : ConvertOptions) (D : Rat) :
    (∀ img, o.overlays.bind OverlaySettings.image = some img →
      (build_filter_chain o D).2 = true
      ∧ (build_filter_chain o D).1
          = ["-filter_complex".data, filterComplexStr o D img, "-map".data, "[outv]".data]
            ++ afArgs o D ++ (if !o.audio_only then ["-map".data, "0:a".data] else [])
            ++ thumbArgs o)
    ∧ (o.overlays.bind OverlaySettings.image = none →
      (build_filter_chain o D).2 = false
      ∧ "-filter_complex".data ∉ (build_filter_chain o D).1
      ∧ ("-vf".data ∈ (build_filter_chain o D).1 ↔ vfFilters o D ≠ [])) := by
  constructor
  · intro img himg
    constructor
    · simp [build_filter_chain, himg]
    · simp [build_filter_chain, himg]
  · intro himg
    have hthumb : ∀ x, x ∈ thumbArgs o → x = "-vframes".data ∨ x = "1".data := by
      intro x hx
      unfold thumbArgs at hx
      rcases List.mem_cons.mp (mem_ite_nil hx) with h1 | h1
      · exact Or.inl h1
      · exact Or.inr (List.mem_singleton.mp h1)
    have hafmem : ∀ x, x ∈ afArgs o D →
        x = "-af".data ∨ (afFilters o D ≠ [] ∧ x = joinComma (afFilters o D)) := by
      intro x hx
      unfold afArgs at hx
      split at hx
      · simp at hx
      · rename_i haf
        rcases List.mem_cons.mp hx with h1 | h1
        · exact Or.inl h1
        · exact Or.inr ⟨haf, List.mem_singleton.mp h1⟩
    refine ⟨by simp [build_filter_chain, himg], ?_, ?_⟩
    · simp only [build_filter_chain, himg]
      intro hmem
      rcases List.mem_append.mp hmem with h | h
      · rcases List.mem_append.mp h with h | h
        · split at h
          · simp at h
          · rename_i hvf
            rcases List.mem_cons.mp h with h1 | h1
            · exact absurd h1 (by decide)
            · have hsh := joinComma_shape hvf (vfFilters_shape o D)
              have hne := stageShape_ne (p := "-filter_complex".data) (by decide) hsh
              exact hne.1 (List.mem_singleton.mp h1).symm
        · rcases hafmem _ h with h1 | ⟨haf, h1⟩
          · exact absurd h1 (by decide)
          · have hsh := joinComma_shape haf (afFilters_shape o D)
            have hne := stageShape_ne (p := "-filter_complex".data) (by decide) hsh
            exact hne.1 h1.symm
      · rcases hthumb _ h with h1 | h1
        · exact absurd h1 (by decide)
        · exact absurd h1 (by decide)
    · simp only [build_filter_chain, himg]
      constructor
      · intro hmem hnil
        rw [hnil] at hmem
        have hmem2 : "-vf".data ∈ afArgs o D ++ thumbArgs o := by
          simpa using hmem
        rcases List.mem_append.mp hmem2 with h | h
        · rcases hafmem _ h with h1 | ⟨haf, h1⟩
          · exact absurd h1 (by decide)
          · have hsh := joinComma_shape haf (afFilters_shape o D)
            have hne := stageShape_ne (p := "-vf".data) (by decide) hsh
            exact hne.1 h1.symm
        · rcases hthumb _ h with h1 | h1
          · exact absurd h1 (by decide)
          · exact absurd h1 (by decide)
      · intro hne
        rw [if_neg hne]
        exact List.mem_append.mpr (Or.inl (List.mem_append.mpr (Or.inl
          (List.mem_cons_self _ _))))

/-- The image overlay used by the C1 witness. -/
def imgOv : ImageOverlay := ⟨"p.png".data, [], [], 1⟩

/-- Options with an image overlay. -/
def oC1 : ConvertOptions := { oDefault with overlays := some ⟨none, some imgOv⟩ }

/-- C1 witness: with an image overlay the flag is true; without one it
is false. -/
theorem C1_complex_branch_witness :
    (build_filter_chain oC1 0).2 = true ∧ (build_filter_chain oDefault 0).2 = false :=
  ⟨((C1_complex_branch oC1 0).1 imgOv rfl).1, ((C1_complex_branch oDefault 0).2 rfl).1⟩

/-- C3: whenever a positive video or audio fade-out duration is set,
the emitted fade-out stage uses start time
`max(0, (trim_end - trim_start) - fade_duration)` (with `trim_end`
defaulting to the total duration and `trim_start` to 0), which is never
negative. -/
theorem C3_fadeout_start (o : ConvertOptions) (D : Rat) :
    (∀ t, o.video_transform = some t → t.fade_out_duration > 0 →
      ("fade=t=out:st=".data ++ renderF (fadeOutStart o D t.fade_out_duration) ++
        ":d=".data ++ renderF t.fade_out_duration) ∈ vfFilters o D
      ∧ fadeOutStart o D t.fade_out_duration
          = max 0 ((o.end_time.getD D - o.start_time.getD 0) - t.fade_out_duration)
      ∧ 0 ≤ fadeOutStart o D t.fade_out_duration)
    ∧ (∀ af, o.audio_filters = some af → af.fade_out_duration > 0 →
      ("afade=t=out:st=".data ++ renderF (fadeOutStart o D af.fade_out_duration) ++
        ":d=".data ++ renderF af.fade_out_duration) ∈ afFilters o D
      ∧ fadeOutStart o D af.fade_out_duration
          = max 0 ((o.end_time.getD D - o.start_time.getD 0) - af.fade_out_duration)
      ∧ 0 ≤ fadeOutStart o D af.fade_out_duration) := by
  have hmax : ∀ d : Rat, fadeOutStart o D d
      = max 0 ((o.end_time.getD D - o.start_time.getD 0) - d) := by
    intro d
    rw [fadeOutStart, ratMax_eq_max, max_comm]
  have hnonneg : ∀ d : Rat, 0 ≤ fadeOutStart o D d := by
    intro d
    rw [hmax d]
    exact le_max_left 0 _
  constructor
  · intro t htr hpos
    refine ⟨?_, hmax _, hnonneg _⟩
    unfold vfFilters vfFade
    rw [htr]
    simp only [List.mem_append, if_pos hpos]
    exact Or.inl (Or.inl (Or.inl (Or.inr (Or.inr (List.mem_singleton.mpr rfl)))))
  · intro af haf hpos
    refine ⟨?_, hmax _, hnonneg _⟩
    unfold afFilters afFade
    rw [haf]
    simp only [List.mem_append, if_pos hpos]
    exact Or.inr (Or.inr (List.mem_singleton.mpr rfl))

/-- The video transform used by the C3 witness: only an 8-second
fade-out. -/
def t8 : VideoTransformSettings := ⟨0, false, 0, 0, 0, 0, false, false, false, false, 0, 0, 8⟩

/-- Options with trim end 5 s (span 5 s) and the 8-second fade-out. -/
def o3 : ConvertOptions := { oDefault with end_time := some 5, video_transform := some t8 }

/-- C3 witness: output span 5 s with fade-out duration 8 s yields start
time `max(0, 5 - 8) = 0`, and the fade stage is emitted. -/
theorem C3_fadeout_start_witness :
    fadeOutStart o3 100 8 = 0
    ∧ ("fade=t=out:st=".data ++ renderF (fadeOutStart o3 100 8) ++
        ":d=".data ++ renderF (8:Rat)) ∈ vfFilters o3 100 := by
  have h8 : t8.fade_out_duration = (8:Rat) := rfl
  have h := (C3_fadeout_start o3 100).1 t8 rfl (by rw [h8]; norm_num)
  have h0 : fadeOutStart o3 100 8 = 0 := by
    rw [← h8, h.2.1]
    have he : o3.end_time = some (5:Rat) := rfl
    have hst : o3.start_time = none := rfl
    rw [he, hst, h8]
    simp only [Option.getD_some, Option.getD_none]
    rw [max_eq_left (by norm_num : ((5:Rat) - 0) - 8 ≤ 0)]
  refine ⟨h0, ?_⟩
  rw [show (8:Rat) = t8.fade_out_duration from rfl]
  exact h.1

theorem countP_zero_of_shape {L : List Str} {p : Str} (hB : clashAllB L p = true)
    {l : List Str} (hl : ∀ s ∈ l, stageShape L s) :
    l.countP (fun s => decide (p <+: s)) = 0 := by
  rw [List.countP_eq_zero]
  intro s hs
  have h := (stageShape_ne hB (hl s hs)).2
  simpa using h

theorem not_eqpre_of_lit {l r : Str} (hB : clashAllB [l] "eq=".data = true) :
    ¬ ("eq=".data <+: (l ++ r)) :=
  fun hp => (stageShape_ne hB ⟨l, by simp, r, rfl⟩).2 hp

theorem vfColor_countP (o : ConvertOptions) :
    (vfColor o).countP (fun s => decide ("eq=".data <+: s))
      = if o.filters.isSome then 1 else 0 := by
  cases hf : o.filters with
  | none => simp [vfColor, hf]
  | some f =>
    simp only [vfColor, hf, Option.isSome_some, if_pos]
    rw [List.countP_append, List.countP_append, List.countP_append, List.countP_append]
    have h1 : ([("eq=brightness=".data ++ renderF f.brightness ++ ":contrast=".data ++
        renderF f.contrast ++ ":saturation=".data ++ renderF f.saturation ++ ":gamma=".data ++
        renderF f.gamma)] : List Str).countP (fun s => decide ("eq=".data <+: s)) = 1 := by
      have hpre : "eq=".data <+: ("eq=brightness=".data ++ renderF f.brightness ++
          ":contrast=".data ++ renderF f.contrast ++ ":saturation=".data ++
          renderF f.saturation ++ ":gamma=".data ++ renderF f.gamma) := by
        refine ⟨"brightness=".data ++ renderF f.brightness ++ ":contrast=".data ++
          renderF f.contrast ++ ":saturation=".data ++ renderF f.saturation ++
          ":gamma=".data ++ renderF f.gamma, ?_⟩
        simp only [← List.append_assoc]
        rfl
      simp [List.countP_cons, hpre]
    have hz : ∀ (lit : Str) (rest : Str) (c : Prop) [Decidable c],
        clashAllB [lit] "eq=".data = true →
        (if c then [lit ++ rest] else []).countP (fun s => decide ("eq=".data <+: s)) = 0 := by
      intro lit rest c hc hB
      rw [List.countP_eq_zero]
      intro s hs
      rw [List.mem_singleton.mp (mem_ite_nil hs)]
      simpa using not_eqpre_of_lit hB
    rw [h1, hz _ _ _ (by decide), hz _ _ _ (by decide), hz _ _ _ (by decide),
      hz _ _ _ (by decide)]

/-- The all-default `FilterSettings` (every numeric field 0, vignette
off). -/
def fsDefault : FilterSettings := ⟨0, 0, 0, 0, 0, 0, 0, false, 0⟩

/-- Options whose only setting is the all-default `FilterSettings`. -/
def oAllDefaultFS : ConvertOptions := { oDefault with filters := some fsDefault }

/-- C4 counterexample: a `ConvertOptions` with no `FilterSettings`
(`filters = None`) produces an argument list with zero `eq=` stages —
the color-adjustment stage is not always present. -/
theorem C4_counterexample :
    (vfFilters oDefault 0).countP (fun s => decide ("eq=".data <+: s)) = 0
    ∧ (build_filter_chain oDefault 0).1 = [] := by
  constructor
  · decide
  · decide

/-- C4 (amended): whenever a `FilterSettings` object is present the
argument list contains exactly one combined color-adjustment `eq=`
stage, even at neutral values, and no other stage starts with `eq=`;
with `filters = None` there is no such stage.  An all-default
`FilterSettings` yields exactly the one `eq=...` stage and nothing
else. -/
theorem C4_eq_stage_count :
    (∀ (o : ConvertOptions) (D : Rat),
      (vfFilters o D).countP (fun s => decide ("eq=".data <+: s))
        = if o.filters.isSome then 1 else 0)
    ∧ vfFilters oAllDefaultFS 0 = ["eq=brightness=0:contrast=0:saturation=0:gamma=0".data]
    ∧ (build_filter_chain oAllDefaultFS 0).1
        = ["-vf".data, "eq=brightness=0:contrast=0:saturation=0:gamma=0".data] := by
  refine ⟨?_, by decide, by decide⟩
  intro o D
  unfold vfFilters
  rw [List.countP_append, List.countP_append, List.countP_append, List.countP_append,
    List.countP_append, List.countP_append, List.countP_append, List.countP_append,
    List.countP_append, List.countP_append]
  rw [countP_zero_of_shape (by decide) (vfPre_shape o),
    countP_zero_of_shape (by decide) (vfSpeed_shape o),
    countP_zero_of_shape (by decide) (vfRot_shape o),
    countP_zero_of_shape (by decide) (vfCrop_shape o),
    countP_zero_of_shape (by decide) (vfScale_shape o),
    countP_zero_of_shape (by decide) (vfFlip_shape o),
    countP_zero_of_shape (by decide) (vfFade_shape o D),
    countP_zero_of_shape (by decide) (vfSub_shape o),
    countP_zero_of_shape (by decide) (vfText_shape o),
    countP_zero_of_shape (by decide) (vfGif_shape o),
    vfColor_countP o]
  omega

/-- Options carrying a hue value of 2^-24 (half of `f32::EPSILON`). -/
def oHue : ConvertOptions :=
  { oDefault with filters := some ⟨0, 0, 0, 0, 0, 0, mkRat 1 16777216, false, 0⟩ }

/-- C5 counterexample: the hue no-op check is an exact `!= 0.0`
comparison, not an epsilon one: a hue of 2^-24, within `f32::EPSILON`
of its neutral value 0, still emits a `hue=h=` stage. -/
theorem C5_counterexample :
    ratAbs (mkRat 1 16777216 - 0) ≤ EPS
    ∧ mkRat 1 16777216 ≠ (0 : Rat)
    ∧ ("hue=h=".data ++ renderF (mkRat 1 16777216)) ∈ vfFilters oHue 0 := by
  refine ⟨?_, by decide, by decide⟩
  have h1 : (mkRat 1 16777216 : Rat) = 1 / 16777216 := by
    rw [Rat.mkRat_eq_div]
    norm_num
  rw [h1, ratAbs, EPS]
  rw [if_neg (by norm_num)]
  norm_num

/-- C5 (amended): only the playback-speed, audio-volume and
overlay-opacity no-op checks use the `f32::EPSILON` tolerance: a speed
within epsilon of 1 emits neither `setpts=` nor `atempo=` stage, a
volume within epsilon of 1 emits no `volume=` stage, and an opacity
within epsilon of 1 skips the opacity pre-processing of the overlay
input.  (Hue, blur, sharpen and fade durations are compared exactly
against zero, per the counterexample.) -/
theorem C5_epsilon_checks (o : ConvertOptions) (D : Rat) :
    (∀ s, o.playback_speed = some s → ratAbs (s - 1) ≤ EPS →
      (∀ x ∈ vfFilters o D, ¬ ("setpts=".data <+: x))
      ∧ (∀ x ∈ afFilters o D, ¬ ("atempo=".data <+: x)))
    ∧ (∀ v, o.audio_volume = some v → ratAbs (v - 1) ≤ EPS →
      ∀ x ∈ afFilters o D, ¬ ("volume=".data <+: x))
    ∧ (∀ ov img, o.overlays = some ov → ov.image = some img →
      ratAbs (img.opacity - 1) ≤ EPS →
      filterComplexStr o D img
        = "[0:v]".data ++ (if vfFilters o D = [] then "null".data else joinComma (vfFilters o D))
          ++ "[v1];".data ++ ("[v1][1:v]overlay=x=".data ++ (if img.x = [] then "0".data else img.x)
          ++ ":y=".data ++ ((if img.y = [] then "0".data else img.y) ++ "[outv]".data))) := by
  refine ⟨?_, ?_, ?_⟩
  · intro s hsp heps
    have hsp0 : vfSpeed o = [] := by
      unfold vfSpeed
      rw [hsp]
      exact if_neg (not_lt.mpr heps)
    have hasp0 : afSpeed o = [] := by
      unfold afSpeed
      rw [hsp]
      exact if_neg (not_lt.mpr heps)
    constructor
    · intro x hx hp
      unfold vfFilters at hx
      rw [hsp0] at hx
      simp only [List.append_nil, List.nil_append] at hx
      simp only [List.mem_append] at hx
      rcases hx with (((((((((h | h) | h) | h) | h) | h) | h) | h) | h) | h)
      · exact (stageShape_ne (by decide) (vfPre_shape o x h)).2 hp
      · exact (stageShape_ne (by decide) (vfRot_shape o x h)).2 hp
      · exact (stageShape_ne (by decide) (vfCrop_shape o x h)).2 hp
      · exact (stageShape_ne (by decide) (vfScale_shape o x h)).2 hp
      · exact (stageShape_ne (by decide) (vfFlip_shape o x h)).2 hp
      · exact (stageShape_ne (by decide) (vfColor_shape o x h)).2 hp
      · exact (stageShape_ne (by decide) (vfFade_shape o D x h)).2 hp
      · exact (stageShape_ne (by decide) (vfSub_shape o x h)).2 hp
      · exact (stageShape_ne (by decide) (vfText_shape o x h)).2 hp
      · exact (stageShape_ne (by decide) (vfGif_shape o x h)).2 hp
    · intro x hx hp
      unfold afFilters at hx
      rw [hasp0] at hx
      simp only [List.append_nil, List.nil_append] at hx
      simp only [List.mem_append] at hx
      rcases hx with (((((h | h) | h) | h) | h) | h)
      · exact (stageShape_ne (by decide) (afNoise_shape o x h)).2 hp
      · exact (stageShape_ne (by decide) (afVolume_shape o x h)).2 hp
      · exact (stageShape_ne (by decide) (afEq_shape o x h)).2 hp
      · exact (stageShape_ne (by decide) (afComp_shape o x h)).2 hp
      · exact (stageShape_ne (by decide) (afNorm_shape o x h)).2 hp
      · exact (stageShape_ne (by decide) (afFade_shape o D x h)).2 hp
  · intro v hv heps x hx hp
    have hv0 : afVolume o = [] := by
      unfold afVolume
      rw [hv]
      exact if_neg (not_lt.mpr heps)
    unfold afFilters at hx
    rw [hv0] at hx
    simp only [List.append_nil, List.nil_append] at hx
    simp only [List.mem_append] at hx
    rcases hx with (((((h | h) | h) | h) | h) | h)
    · exact (stageShape_ne (by decide) (afNoise_shape o x h)).2 hp
    · exact (stageShape_ne (by decide) (afSpeed_shape o x h)).2 hp
    · exact (stageShape_ne (by decide) (afEq_shape o x h)).2 hp
    · exact (stageShape_ne (by decide) (afComp_shape o x h)).2 hp
    · exact (stageShape_ne (by decide) (afNorm_shape o x h)).2 hp
    · exact (stageShape_ne (by decide) (afFade_shape o D x h)).2 hp
  · intro ov img hov himg heps
    simp only [filterComplexStr]
    rw [if_neg (not_lt.mpr heps)]
    simp [List.append_assoc]

/-- Options for the C5 witness: playback speed exactly 1 plus the
all-default color settings. -/
def o5 : ConvertOptions :=
  { oDefault with playback_speed := some 1, filters := some fsDefault }

/-- C5 witness: at speed exactly 1 (within epsilon of neutral), the C5
theorem applies and the single emitted stage is not a `setpts=` one. -/
theorem C5_epsilon_checks_witness :
    ¬ ("setpts=".data <+: "eq=brightness=0:contrast=0:saturation=0:gamma=0".data) := by
  have heps : ratAbs ((1:Rat) - 1) ≤ EPS := by
    rw [show (1:Rat) - 1 = 0 by norm_num, ratAbs, if_neg (lt_irrefl 0), EPS]
    norm_num
  have hmem : ("eq=brightness=0:contrast=0:saturation=0:gamma=0".data) ∈ vfFilters o5 0 := by
    unfold vfFilters
    simp only [List.mem_append]
    exact Or.inl (Or.inl (Or.inl (Or.inl (Or.inr (by decide)))))
  exact ((C5_epsilon_checks o5 0).1 1 rfl heps).1 _ hmem

/-- Options with playback speed 2.0 and nothing else set. -/
def o7 : ConvertOptions := { oDefault with playback_speed := some 2 }

/-- C7: with playback speed 2.0 and no other filter settings, the
builder produces exactly the video stage `setpts=0.5*PTS` and the audio
stage `atempo=2`, for every total duration. -/
theorem C7_speed_two (D : Rat) :
    vfFilters o7 D = ["setpts=0.5*PTS".data]
    ∧ afFilters o7 D = ["atempo=2".data]
    ∧ (build_filter_chain o7 D).1
        = ["-vf".data, "setpts=0.5*PTS".data, "-af".data, "atempo=2".data]
    ∧ (build_filter_chain o7 D).2 = false := by
  have hcond : ratAbs ((2:Rat) - 1) > EPS := by
    rw [show (2:Rat) - 1 = 1 by norm_num, ratAbs, if_neg (by norm_num : ¬ (1:Rat) < 0), EPS]
    norm_num
  have hhalf : (1:Rat) / 2 = mkRat 1 2 := by
    rw [Rat.mkRat_eq_div]
    norm_num
  have hs1 : vfSpeed o7 = ["setpts=0.5*PTS".data] := by
    unfold vfSpeed
    simp only [show o7.playback_speed = some 2 from rfl]
    rw [if_pos hcond, hhalf]
    decide
  have hs2 : afSpeed o7 = ["atempo=2".data] := by
    unfold afSpeed
    simp only [show o7.playback_speed = some 2 from rfl]
    rw [if_pos hcond]
    decide
  have hvf : vfFilters o7 D = ["setpts=0.5*PTS".data] := by
    unfold vfFilters
    rw [hs1, show vfPre o7 = [] from rfl, show vfRot o7 = [] from rfl,
      show vfCrop o7 = [] from rfl, show vfScale o7 = [] from by decide,
      show vfFlip o7 = [] from rfl, show vfColor o7 = [] from rfl,
      show vfFade o7 D = [] from rfl, show vfSub o7 = [] from rfl,
      show vfText o7 = [] from rfl, show vfGif o7 = [] from by decide]
    simp
  have haf : afFilters o7 D = ["atempo=2".data] := by
    unfold afFilters
    rw [hs2, show afNoise o7 = [] from rfl, show afVolume o7 = [] from rfl,
      show afEq o7 = [] from rfl, show afComp o7 = [] from rfl,
      show afNorm o7 = [] from rfl, show afFade o7 D = [] from rfl]
    simp
  refine ⟨hvf, haf, ?_, ?_⟩
  · unfold build_filter_chain
    simp only [show o7.overlays.bind OverlaySettings.image = none from rfl]
    unfold afArgs thumbArgs
    rw [hvf, haf]
    simp only [show o7.extract_thumbnail = none from rfl]
    simp
    exact ⟨rfl, rfl⟩
  · unfold build_filter_chain
    simp only [show o7.overlays.bind OverlaySettings.image = none from rfl]

/-- C6: in the conversion loop the cancellation flag is loaded before
each line is processed; if the flag is set (and stays set, as the
atomic flag is only ever written `true` during a job) while lines
remain — the child still running — the outcome is `cancelled`, never
`success` and never the generic tool failure, whatever the exit status
would have been. -/
theorem C6_cancellation (lines : List Str) (flag : Nat → Bool) (exitOk : Bool) (D : Rat)
    (i : Nat) (hi : i < lines.length) (hset : flag i = true) :
    (convertRun lines flag exitOk D).1 = ConvOutcome.cancelled := by
  suffices h : ∀ (ls : List Str) (n : Nat),
      (∃ i2, n ≤ i2 ∧ i2 < n + ls.length ∧ flag i2 = true) →
      (convertLoopAux flag exitOk D ls n).1 = ConvOutcome.cancelled by
    exact h lines 0 ⟨i, Nat.zero_le i, by simpa using hi, hset⟩
  intro ls
  induction ls with
  | nil =>
    rintro n ⟨i2, h1, h2, _⟩
    simp at h2
    omega
  | cons l rest ih =>
    rintro n ⟨i2, h1, h2, h3⟩
    by_cases hn : flag n = true
    · simp [convertLoopAux, hn]
    · have hni : n ≠ i2 := fun he => hn (he ▸ h3)
      have hstep : (convertLoopAux flag exitOk D (l :: rest) n).1
          = (convertLoopAux flag exitOk D rest (n + 1)).1 := by
        rw [convertLoopAux]
        rw [if_neg (by simpa using hn)]
      rw [hstep]
      refine ih (n + 1) ⟨i2, by omega, ?_, h3⟩
      simp at h2
      omega

/-- C6 witness: two diagnostic lines, the flag set from the second
iteration on, and a successful-looking exit status still give the
cancellation outcome. -/
theorem C6_cancellation_witness :
    (convertRun ["frame=1".data, "frame=2".data] (fun n => decide (1 ≤ n)) true 10).1
      = ConvOutcome.cancelled :=
  C6_cancellation _ _ _ _ 1 (by decide) (by decide)

/-- C9 counterexample: when the external tool fails to launch,
`merge_media` returns through the `?` operator before reaching the
`remove_file` call, so the temporary concat list file is NOT removed on
that path — contradicting removal "on every path". -/
theorem C9_counterexample : (merge_media_model true MergeSpawn.launchFail).2 = false := rfl

/-- C9 (amended): after a successful launch and wait, the temporary
concat list file is removed before the exit status is inspected — on
both the success and the non-zero-exit path; it is not removed when the
process fails to launch or when waiting on it errors. -/
theorem C9_cleanup :
    (∀ ok : Bool, (merge_media_model true (MergeSpawn.exited ok)).2 = true)
    ∧ (merge_media_model true MergeSpawn.launchFail).2 = false
    ∧ (merge_media_model true MergeSpawn.waitFail).2 = false := by
  refine ⟨?_, rfl, rfl⟩
  intro ok
  cases ok <;> rfl

end FFE
